import Mathlib

/-!
Verification of the MindCare health-analytics core.

This file gives a shallow embedding, in Lean 4, of the analytic functions of
the MindCare journaling application and proves the testable properties of its
specification against them:

* `computeHealthScore`   — the daily dashboard health-score calculator
  (`UnifiedDashboardToday.computeHealthScore`);
* `advancedHealthScore`  — the 30-day analytics health score (`AdvancedStats`);
* `calculateTrend`       — the half-versus-half percentage trend;
* `calculateDayStreak`   — the consecutive-day streak over dated entries
  (`user-profile.tsx`);
* `generateInsight`      — the keyword-matching chatbot response selector
  (`health-chatbot.tsx`);
* a model of the health-entries store with the save (create-or-update)
  operation of `UnifiedDashboardToday.handleSave`.

Conventions of the embedding: JavaScript numbers are modelled as exact
rationals `ℚ` (all arithmetic appearing in this code is exact on the inputs
considered); calendar dates, already midnight-normalized by the code before
use, are modelled as integer day numbers `ℤ`; optional / possibly-absent
fields are `Option`; `Math.round` is `jround` below.
-/

/-- JavaScript `Math.round`: rounds half away from zero toward positive
infinity, i.e. `⌊x + 1/2⌋`. -/
def jround (q : ℚ) : ℤ := ⌊q + 1 / 2⌋

/-- The mood-weight table `{excellent: 5, good: 4, neutral: 3, poor: 2,
terrible: 1}` shared by both health-score call sites and the chatbot;
`none` for any other string (an absent key in the JS object). -/
def moodValues (s : String) : Option ℚ :=
  if s = "excellent" then some 5
  else if s = "good" then some 4
  else if s = "neutral" then some 3
  else if s = "poor" then some 2
  else if s = "terrible" then some 1
  else none

/-- Lookup of an optional mood with default weight 3, as in
`moodMap[String(sourceData.mood || '')] ?? 3` and
`moodValues[entry.mood] || 3` (the table values 1..5 are never falsy, so
`?? 3` and `|| 3` agree). -/
def moodWeight (m : Option String) : ℚ := (moodValues (m.getD "")).getD 3

/-- Shallow embedding of `computeHealthScore` from the daily dashboard
(`UnifiedDashboardToday`): absent numeric fields fall back to `'0'` before
parsing (`parseFloat(String(x || '0'))`), the mood weight defaults to 3,
each component is capped before weighting, and the sum is rounded. -/
def computeHealthScore (mood : Option String)
    (sleep_hours exercise_minutes water_intake : Option ℚ) : ℤ :=
  let moodVal := moodWeight mood
  let sleepVal := sleep_hours.getD 0
  let exerciseVal := exercise_minutes.getD 0
  let waterVal := water_intake.getD 0
  let partMood := (moodVal / 5) * 30
  let partSleep := min (sleepVal / 8) 1 * 25
  let partExercise := min (exerciseVal / 120) 1 * 25
  let partWater := min (waterVal / 8) 1 * 20
  jround (partMood + partSleep + partExercise + partWater)

/-- Shallow embedding of `calculateTrend` from `AdvancedStats`: split at the
midpoint (`slice(0, ⌊n/2⌋)` / `slice(⌊n/2⌋)`), compare the two means.
Division here is exact rational division (Lean's `x / 0 = 0` convention is
only reachable when the first-half mean is zero; `calculateTrendFin` below
tracks the JS non-finite outcome of that case). -/
def calculateTrend (values : List ℚ) : ℚ :=
  if values.length < 2 then 0
  else
    let firstHalf := values.take (values.length / 2)
    let secondHalf := values.drop (values.length / 2)
    let firstAvg := firstHalf.sum / (firstHalf.length : ℚ)
    let secondAvg := secondHalf.sum / (secondHalf.length : ℚ)
    (secondAvg - firstAvg) / firstAvg * 100

/-- Embedding of `calculateTrend` that tracks IEEE non-finiteness of the JS
original: when the series has at least two points and the first-half mean is
`0`, the JS division `(secondAvg - firstAvg) / firstAvg` yields `±Infinity`
(or `NaN` when the numerator is also zero), a non-finite value modelled as
`none`; in every other case all operations are exact and finite. -/
def calculateTrendFin (values : List ℚ) : Option ℚ :=
  if values.length < 2 then some 0
  else
    let firstHalf := values.take (values.length / 2)
    let secondHalf := values.drop (values.length / 2)
    let firstAvg := firstHalf.sum / (firstHalf.length : ℚ)
    let secondAvg := secondHalf.sum / (secondHalf.length : ℚ)
    if firstAvg = 0 then none else some ((secondAvg - firstAvg) / firstAvg * 100)

/-- The mean of the first half of a series, `firstAvg` in `calculateTrend`. -/
def firstHalfMean (values : List ℚ) : ℚ :=
  (values.take (values.length / 2)).sum / ((values.take (values.length / 2)).length : ℚ)

/-- The `HealthEntry` row type of `src/lib/supabase.ts`, with the database
string id modelled as a natural number, `entry_date` as an integer day
number, and numeric metrics as exact rationals. -/
structure HealthEntry where
  id : ℕ
  user_id : String
  entry_date : ℤ
  mood : Option String
  symptoms : Option String
  notes : Option String
  sleep_hours : ℚ
  water_intake : ℚ
  exercise_minutes : ℚ
  energy_level : Option ℤ
  stress_level : Option ℤ
deriving DecidableEq

/-- Shallow embedding of the `AdvancedStats` health score: averages of mood,
sleep and water over the last 30 entries, but the exercise component uses the
30-day *sum* of minutes against a 1500-minute cap. -/
def advancedHealthScore (entries : List HealthEntry) : ℤ :=
  let last30 := entries.take 30
  let moodScores := last30.map (fun e => moodWeight e.mood)
  let avgMood := moodScores.sum / (moodScores.length : ℚ)
  let sleepHours := last30.map (fun e => e.sleep_hours)
  let avgSleep := sleepHours.sum / (sleepHours.length : ℚ)
  let exerciseMinutes := last30.map (fun e => e.exercise_minutes)
  let totalExercise := exerciseMinutes.sum
  let waterIntake := last30.map (fun e => e.water_intake)
  let avgWater := waterIntake.sum / (waterIntake.length : ℚ)
  jround ((avgMood / 5) * 30 + min (avgSleep / 8) 1 * 25 +
    min (totalExercise / 1500) 1 * 25 + min (avgWater / 8) 1 * 20)

/-- A mood option is absent or one of the five recognized mood strings. -/
def ValidMood (m : Option String) : Prop :=
  m = none ∨ m = some "excellent" ∨ m = some "good" ∨ m = some "neutral" ∨
    m = some "poor" ∨ m = some "terrible"

/-- An optional numeric field that, when present, is non-negative. -/
def NonnegOpt (o : Option ℚ) : Prop := ∀ x, o = some x → 0 ≤ x

/-- Deduplication of dates exactly as in `calculateDayStreak`: walk the list
left to right, appending a date only when its key has not been seen. -/
def dedupDates (l : List ℤ) : List ℤ :=
  l.foldl (fun acc d => if d ∈ acc then acc else acc ++ [d]) []

/-- The descending sort `dateEntries.sort((a, b) => b - a)`; the input is
duplicate-free, so any comparison sort produces this unique result. -/
def sortDesc (l : List ℤ) : List ℤ := l.insertionSort (fun a b => a ≥ b)

/-- The backward walk of `calculateDayStreak`: starting at the expected date
`check`, count matching consecutive days, stopping at the first mismatch. -/
def streakWalk : List ℤ → ℤ → ℕ
  | [], _ => 0
  | d :: rest, check => if d = check then streakWalk rest (check - 1) + 1 else 0

/-- Core of `calculateDayStreak` over midnight-normalized dates: dedupe,
sort descending, break the streak when the most recent date is more than one
day before `today`, otherwise walk backward from the most recent date. -/
def calculateDayStreakD (today : ℤ) (dates : List ℤ) : ℕ :=
  if dates.isEmpty then 0
  else
    match sortDesc (dedupDates dates) with
    | [] => 0
    | mostRecent :: rest =>
      if today - mostRecent > 1 then 0
      else streakWalk (mostRecent :: rest) mostRecent

/-- Shallow embedding of `calculateDayStreak` from `user-profile.tsx`. -/
def calculateDayStreak (today : ℤ) (entries : List HealthEntry) : ℕ :=
  calculateDayStreakD today (entries.map (fun e => e.entry_date))

/-- An entry carrying only a date, for stating streak properties. -/
def entryOn (d : ℤ) : HealthEntry :=
  ⟨0, "user", d, none, none, none, 0, 0, 0, none, none⟩

/-- One keyword-trigger group of the chatbot's `healthInsights` table. -/
structure InsightGroup where
  trigger : List String
  response : String
  suggestions : List String
deriving DecidableEq

/-- The sleep trigger group (first entry of `healthInsights`). -/
def sleepGroup : InsightGroup :=
  { trigger := ["sleep", "tired", "exhausted", "insomnia"]
    response := "I notice you\x27ve been tracking your sleep patterns. Based on your data, here are some insights about your sleep quality and suggestions for improvement."
    suggestions := ["How can I improve my sleep?", "What affects my sleep quality?", "Sleep hygiene tips"] }

/-- The mood trigger group (second entry of `healthInsights`). -/
def moodGroup : InsightGroup :=
  { trigger := ["mood", "depressed", "anxious", "stress", "sad"]
    response := "I see you\x27re discussing your mood and mental health. Your diary entries show patterns that we can explore together."
    suggestions := ["How is my mood trending?", "What affects my mood?", "Mental health resources"] }

/-- The exercise trigger group (third entry of `healthInsights`). -/
def exerciseGroup : InsightGroup :=
  { trigger := ["exercise", "workout", "fitness", "activity"]
    response := "Great to hear about your physical activity! Let me analyze your exercise patterns and provide some insights."
    suggestions := ["Exercise recommendations", "How does exercise affect my mood?", "Fitness goals"] }

/-- The nutrition trigger group (fourth entry of `healthInsights`). -/
def nutritionGroup : InsightGroup :=
  { trigger := ["nutrition", "diet", "food", "eating", "meal"]
    response := "Nutrition plays a crucial role in your overall health. Let me help you understand the connection between your diet and well-being."
    suggestions := ["Nutritional insights", "How does food affect my energy?", "Healthy eating tips"] }

/-- The ordered `healthInsights` table of `health-chatbot.tsx`. -/
def healthInsights : List InsightGroup :=
  [sleepGroup, moodGroup, exerciseGroup, nutritionGroup]

/-- JS `String.prototype.includes`: contiguous-substring test over the
character lists. -/
def hasSubstr : List Char → List Char → Bool
  | [], sub => sub.isEmpty
  | c :: t, sub => sub.isPrefixOf (c :: t) || hasSubstr t sub

/-- JS `toLowerCase` restricted to the ASCII range used by the triggers,
over the message's character list. -/
def lowerStr (s : String) : List Char := s.toList.map Char.toLower

/-- Whether a trigger group matches an (already lower-cased) message:
`insight.trigger.some(trigger => lowerMessage.includes(trigger))`. -/
def matchesGroup (g : InsightGroup) (lowerMessage : List Char) : Bool :=
  g.trigger.any (fun t => hasSubstr lowerMessage t.toList)

/-- A piece of a chatbot reply: literal text, or a number rendered by JS
`toFixed(1)` (kept symbolic so the embedding does not commit to a decimal
rendering of the rational). -/
inductive ChatPiece where
  | text : String → ChatPiece
  | fix1 : ℚ → ChatPiece
deriving DecidableEq

/-- Average mood weight of the 7 most recent entries (default 3 when there
are none), as computed in the chatbot fallback. -/
def avgMoodRecent (entries : List HealthEntry) : ℚ :=
  let recent := entries.take 7
  if 0 < recent.length then
    (recent.map (fun e => moodWeight e.mood)).sum / (recent.length : ℚ)
  else 3

/-- Average sleep hours of the 7 most recent entries (default 0 when there
are none), as computed in the chatbot fallback. -/
def avgSleepRecent (entries : List HealthEntry) : ℚ :=
  let recent := entries.take 7
  if 0 < recent.length then
    (recent.map (fun e => e.sleep_hours)).sum / (recent.length : ℚ)
  else 0

/-- Total exercise minutes of the 7 most recent entries, as computed in the
chatbot fallback. -/
def totalExerciseRecent (entries : List HealthEntry) : ℚ :=
  ((entries.take 7).map (fun e => e.exercise_minutes)).sum

/-- The mood sentence of the chatbot fallback reply, selected by the
thresholds `avgMood >= 4` and `avgMood <= 2`. -/
def moodPhrase (entries : List HealthEntry) : List ChatPiece :=
  if avgMoodRecent entries ≥ 4 then
    [.text "ðŸŒŸ Your mood has been quite positive recently! "]
  else if avgMoodRecent entries ≤ 2 then
    [.text "ðŸ’™ I notice your mood has been lower lately. "]
  else
    [.text "ðŸ“Š Your mood has been fairly stable. "]

/-- The sleep sentence of the chatbot fallback reply, selected by the
thresholds `avgSleep >= 7` and `avgSleep < 6` (nothing in between). -/
def sleepPhrase (entries : List HealthEntry) : List ChatPiece :=
  if avgSleepRecent entries ≥ 7 then
    [.text "Your sleep quality looks good with an average of ",
     .fix1 (avgSleepRecent entries), .text " hours. "]
  else if avgSleepRecent entries < 6 then
    [.text "Your sleep might need attention - averaging ",
     .fix1 (avgSleepRecent entries), .text " hours. "]
  else []

/-- The exercise sentence of the chatbot fallback reply, selected by the
thresholds `totalExercise > 150` and `totalExercise < 60`. -/
def exercisePhrase (entries : List HealthEntry) : List ChatPiece :=
  if totalExerciseRecent entries > 150 then
    [.text "Great job staying active! "]
  else if totalExerciseRecent entries < 60 then
    [.text "Consider adding more physical activity to your routine. "]
  else []

/-- The generated-summary fallback of `generateInsight`, assembled over the 7
most recent entries with the generic suggestion list. -/
def fallbackInsight (entries : List HealthEntry) : List ChatPiece × List String :=
  ([.text "Based on your recent health data, here\x27s what I\x27ve observed:\n\n"] ++
     moodPhrase entries ++ sleepPhrase entries ++ exercisePhrase entries ++
     [.text "\n\nWould you like me to dive deeper into any specific area?"],
   ["Tell me more about my sleep patterns", "How can I improve my mood?",
    "What exercise routine would work for me?", "Show me my health trends"])

/-- Shallow embedding of `generateInsight` from `health-chatbot.tsx`:
lower-case the message, return the first matching trigger group's fixed
response and suggestions, else the generated fallback summary. -/
def generateInsight (userMessage : String) (entries : List HealthEntry) :
    List ChatPiece × List String :=
  let lowerMessage := lowerStr userMessage
  match healthInsights.find? (fun g => matchesGroup g lowerMessage) with
  | some g => ([.text g.response], g.suggestions)
  | none => fallbackInsight entries

/-- The payload assembled by `handleSave`: `user_id` and `entry_date` are
always set, the numeric metrics are always set (empty form fields coerce to
0), and `mood`, `symptoms`, `notes`, `energy_level`, `stress_level` are
`undefined` (here `none`) when their form fields are empty. -/
structure SavePayload where
  user_id : String
  entry_date : ℤ
  mood : Option String
  symptoms : Option String
  notes : Option String
  sleep_hours : ℚ
  water_intake : ℚ
  exercise_minutes : ℚ
  energy_level : Option ℤ
  stress_level : Option ℤ
deriving DecidableEq

/-- Modelled from the spec: the remote store applies a partial update by
overwriting the columns present in the payload and leaving columns whose
payload value is `undefined` (`none`) unchanged; the row id is never part of
the payload. -/
def applyPayload (r : HealthEntry) (p : SavePayload) : HealthEntry :=
  { r with
    user_id := p.user_id
    entry_date := p.entry_date
    mood := match p.mood with | some m => some m | none => r.mood
    symptoms := match p.symptoms with | some s => some s | none => r.symptoms
    notes := match p.notes with | some s => some s | none => r.notes
    sleep_hours := p.sleep_hours
    water_intake := p.water_intake
    exercise_minutes := p.exercise_minutes
    energy_level := match p.energy_level with | some v => some v | none => r.energy_level
    stress_level := match p.stress_level with | some v => some v | none => r.stress_level }

/-- Modelled from the spec: `updateHealthEntry(id, payload)` — the external
table update `UPDATE health_entries SET ... WHERE id = ?`, applied to every
row whose id matches. -/
def updateById (store : List HealthEntry) (i : ℕ) (p : SavePayload) : List HealthEntry :=
  store.map (fun r => if r.id = i then applyPayload r p else r)

/-- A freshly inserted row built from a payload, as `createHealthEntry`
stores it; the id is the database-generated identifier. -/
def rowOfPayload (i : ℕ) (p : SavePayload) : HealthEntry :=
  ⟨i, p.user_id, p.entry_date, p.mood, p.symptoms, p.notes,
   p.sleep_hours, p.water_intake, p.exercise_minutes,
   p.energy_level, p.stress_level⟩

/-- The lookup performed by `loadTodayEntry`: among the user's rows, find the
one whose entry date equals the requested date. -/
def findFor (store : List HealthEntry) (u : String) (d : ℤ) : Option HealthEntry :=
  store.find? (fun r => decide (r.user_id = u ∧ r.entry_date = d))

/-- Shallow embedding of `handleSave`: if a row for the payload's user and
date exists, update that row by id; otherwise insert a new row with the
database-generated id `fid` (modelled from the spec: the remote store issues
an id not already in use). -/
def saveEntry (store : List HealthEntry) (fid : ℕ) (p : SavePayload) : List HealthEntry :=
  match findFor store p.user_id p.entry_date with
  | some e => updateById store e.id p
  | none => store ++ [rowOfPayload fid p]

/-- Modelled from the spec: a database-generated id that is fresh for the
store, one more than the largest id in use. -/
def nextId (store : List HealthEntry) : ℕ :=
  (store.map (fun r => r.id)).foldr max 0 + 1

/-- A save with the database-generated fresh id. -/
def saveEntryAuto (store : List HealthEntry) (p : SavePayload) : List HealthEntry :=
  saveEntry store (nextId store) p

/-- The (user, date) key of a row. -/
def keyOf (r : HealthEntry) : String × ℤ := (r.user_id, r.entry_date)

/-- Number of rows of the store for a given user and calendar date. -/
def countFor (store : List HealthEntry) (u : String) (d : ℤ) : ℕ :=
  (store.map keyOf).count (u, d)

/-- Store well-formedness: row ids are pairwise distinct and every user has
at most one row per calendar date. -/
def StoreInv (store : List HealthEntry) : Prop :=
  (store.map (fun r => r.id)).Nodup ∧ ∀ u d, countFor store u d ≤ 1

lemma moodWeight_bounds (m : Option String) : 1 ≤ moodWeight m ∧ moodWeight m ≤ 5 := by
  unfold moodWeight moodValues
  split_ifs <;> norm_num

lemma capped_bounds (x k c : ℚ) (hx : 0 ≤ x) (hk : 0 < k) (hc : 0 ≤ c) :
    0 ≤ min (x / k) 1 * c ∧ min (x / k) 1 * c ≤ c := by
  constructor
  · exact mul_nonneg (le_min (div_nonneg hx hk.le) zero_le_one) hc
  · have h := min_le_right (x / k) (1 : ℚ)
    nlinarith

lemma jround_range (q : ℚ) (h0 : 0 ≤ q) (h100 : q ≤ 100) :
    0 ≤ jround q ∧ jround q ≤ 100 := by
  constructor
  · exact Int.le_floor.mpr (by push_cast; linarith)
  · have h1 : jround q ≤ ⌊(100 : ℚ) + 1 / 2⌋ := Int.floor_le_floor (by linarith)
    have h2 : ⌊(100 : ℚ) + 1 / 2⌋ = 100 := by
      rw [Int.floor_eq_iff]
      constructor <;> norm_num
    omega

lemma nonnegOpt_getD (o : Option ℚ) (h : NonnegOpt o) : 0 ≤ o.getD 0 := by
  rcases o with _ | x
  · norm_num
  · exact h x rfl

/-- C1: for every input whose mood is absent or one of the five recognized
moods and whose numeric fields are, when present, non-negative,
`computeHealthScore` returns an integer in `[0, 100]`; the input
`{mood: excellent, sleep_hours: 8, exercise_minutes ≥ 120, water_intake ≥ 8}`
scores exactly 100, and the all-absent input scores exactly 18
(mood-only `3/5 × 30`, all other components 0). -/
theorem claim_C1 :
    (∀ (m : Option String) (s e w : Option ℚ), ValidMood m →
        NonnegOpt s → NonnegOpt e → NonnegOpt w →
        0 ≤ computeHealthScore m s e w ∧ computeHealthScore m s e w ≤ 100)
    ∧ (∀ e w : ℚ, 120 ≤ e → 8 ≤ w →
        computeHealthScore (some "excellent") (some 8) (some e) (some w) = 100)
    ∧ computeHealthScore none none none none = 18 := by
  refine ⟨?_, ?_, ?_⟩
  · intro m s e w _hm hs he hw
    have hsv := nonnegOpt_getD s hs
    have hev := nonnegOpt_getD e he
    have hwv := nonnegOpt_getD w hw
    have hmv := moodWeight_bounds m
    have c1 := capped_bounds (s.getD 0) 8 25 hsv (by norm_num) (by norm_num)
    have c2 := capped_bounds (e.getD 0) 120 25 hev (by norm_num) (by norm_num)
    have c3 := capped_bounds (w.getD 0) 8 20 hwv (by norm_num) (by norm_num)
    show 0 ≤ jround ((moodWeight m / 5) * 30 + min (s.getD 0 / 8) 1 * 25 +
          min (e.getD 0 / 120) 1 * 25 + min (w.getD 0 / 8) 1 * 20)
        ∧ jround ((moodWeight m / 5) * 30 + min (s.getD 0 / 8) 1 * 25 +
          min (e.getD 0 / 120) 1 * 25 + min (w.getD 0 / 8) 1 * 20) ≤ 100
    exact jround_range _ (by nlinarith [hmv.1, hmv.2, c1.1, c2.1, c3.1])
      (by nlinarith [hmv.1, hmv.2, c1.2, c2.2, c3.2])
  · intro e w he hw
    have hmood : moodWeight (some "excellent") = 5 := by decide
    have h1 : min ((8 : ℚ) / 8) 1 = 1 := by norm_num
    have h2 : min (e / 120) 1 = 1 :=
      min_eq_right ((le_div_iff₀ (by norm_num)).mpr (by linarith))
    have h3 : min (w / 8) 1 = 1 :=
      min_eq_right ((le_div_iff₀ (by norm_num)).mpr (by linarith))
    show jround ((moodWeight (some "excellent") / 5) * 30 + min ((8 : ℚ) / 8) 1 * 25 +
        min (e / 120) 1 * 25 + min (w / 8) 1 * 20) = 100
    rw [hmood, h1, h2, h3]
    unfold jround
    rw [Int.floor_eq_iff]
    constructor <;> norm_num
  · show jround ((moodWeight none / 5) * 30 + min ((0 : ℚ) / 8) 1 * 25 +
        min ((0 : ℚ) / 120) 1 * 25 + min ((0 : ℚ) / 8) 1 * 20) = 18
    have hmood : moodWeight none = 3 := by decide
    rw [hmood]
    unfold jround
    rw [Int.floor_eq_iff]
    constructor <;> norm_num

/-- Witness for C1 at concrete inputs. -/
theorem claim_C1_witness :
    (0 ≤ computeHealthScore (some "good") (some 4) none (some 20)
      ∧ computeHealthScore (some "good") (some 4) none (some 20) ≤ 100)
    ∧ computeHealthScore (some "excellent") (some 8) (some 130) (some 9) = 100 :=
  ⟨claim_C1.1 (some "good") (some 4) none (some 20)
      (Or.inr (Or.inr (Or.inl rfl)))
      (fun x hx => by cases hx; norm_num)
      (fun x hx => by cases hx)
      (fun x hx => by cases hx; norm_num),
    claim_C1.2.1 130 9 (by norm_num) (by norm_num)⟩

/-- C3: `calculateTrend` returns 0 for every series with fewer than two data
points, and for `[1, 1, 2, 2]` — first half `[1, 1]` with mean 1, second half
`[2, 2]` with mean 2, split by array position at the midpoint — it returns
`(2 - 1) / 1 * 100 = 100`. -/
theorem claim_C3 :
    (∀ values : List ℚ, values.length < 2 → calculateTrend values = 0)
    ∧ calculateTrend [1, 1, 2, 2] = 100
    ∧ ([(1 : ℚ), 1, 2, 2].take 2 = [1, 1] ∧ [(1 : ℚ), 1, 2, 2].drop 2 = [2, 2]
        ∧ firstHalfMean [1, 1, 2, 2] = 1) := by
  refine ⟨?_, ?_, ?_, ?_, ?_⟩
  · intro values h
    unfold calculateTrend
    rw [if_pos h]
  · norm_num [calculateTrend]
  · norm_num
  · norm_num
  · norm_num [firstHalfMean]

/-- Witness for C3 on a single-element series. -/
theorem claim_C3_witness : calculateTrend [5] = 0 :=
  claim_C3.1 [5] (by norm_num)

/-- C10: for every series of odd length at least 3, `calculateTrend` puts the
middle element at the head of the second half: the first half is the first
`⌊n/2⌋` elements, the second half the remaining `⌈n/2⌉ = (n+1)/2` elements,
and the result is `(secondHalfMean - firstHalfMean) / firstHalfMean * 100`. -/
theorem claim_C10 (v : List ℚ) (hodd : v.length % 2 = 1) (h3 : 3 ≤ v.length) :
    (v.take (v.length / 2)).length = v.length / 2
    ∧ (v.drop (v.length / 2)).length = (v.length + 1) / 2
    ∧ (v.drop (v.length / 2)).head? = v[v.length / 2]?
    ∧ calculateTrend v =
        ((v.drop (v.length / 2)).sum / ((v.drop (v.length / 2)).length : ℚ)
            - firstHalfMean v) / firstHalfMean v * 100 := by
  refine ⟨?_, ?_, ?_, ?_⟩
  · rw [List.length_take]
    omega
  · rw [List.length_drop]
    omega
  · exact List.head?_drop v (v.length / 2)
  · unfold calculateTrend firstHalfMean
    rw [if_neg (by omega)]

/-- Witness for C10 on the series `[1, 2, 3]`. -/
theorem claim_C10_witness : ([(1 : ℚ), 2, 3].take 1).length = 1 :=
  (claim_C10 [1, 2, 3] (by norm_num) (by norm_num)).1

/-- The single-day entry (mood excellent, 8 hours sleep, 120 exercise
minutes, 8 glasses of water) on which the two health-score call sites
disagree. -/
def entry100 : HealthEntry :=
  ⟨0, "user", 0, some "excellent", none, none, 8, 8, 120, none, none⟩

/-- C4: the two health-score call sites use different exercise cap
denominators (120 for a single day's minutes in the dashboard calculator,
1500 for the 30-day sum in the analytics calculator), so on the same
single-day metrics — mood excellent, sleep 8, exercise 120, water 8 — the
dashboard scores 100 while the analytics view scores 77. -/
theorem claim_C4 :
    computeHealthScore (some "excellent") (some 8) (some 120) (some 8) = 100
    ∧ advancedHealthScore [entry100] = 77
    ∧ computeHealthScore (some "excellent") (some 8) (some 120) (some 8)
        ≠ advancedHealthScore [entry100] := by
  have h1 : computeHealthScore (some "excellent") (some 8) (some 120) (some 8) = 100 :=
    claim_C1.2.1 120 8 (by norm_num) (by norm_num)
  have h2 : advancedHealthScore [entry100] = 77 := by
    have hmood : moodWeight (some "excellent") = 5 := by decide
    simp only [advancedHealthScore, entry100]
    norm_num [hmood, jround]
  exact ⟨h1, h2, by rw [h1, h2]; norm_num⟩

/-- C8: the four analytic functions are pure: two invocations on identical
arguments always return identical results. -/
theorem claim_C8 :
    (∀ (m : Option String) (s e w : Option ℚ),
        computeHealthScore m s e w = computeHealthScore m s e w)
    ∧ (∀ (today : ℤ) (es : List HealthEntry),
        calculateDayStreak today es = calculateDayStreak today es)
    ∧ (∀ values : List ℚ, calculateTrend values = calculateTrend values)
    ∧ (∀ (msg : String) (es : List HealthEntry),
        generateInsight msg es = generateInsight msg es) :=
  ⟨fun _ _ _ _ => rfl, fun _ _ => rfl, fun _ => rfl, fun _ _ => rfl⟩

lemma mem_foldl_dedup (l acc : List ℤ) (x : ℤ) :
    x ∈ l.foldl (fun acc d => if d ∈ acc then acc else acc ++ [d]) acc ↔
      x ∈ acc ∨ x ∈ l := by
  induction l generalizing acc with
  | nil => simp
  | cons a l ih =>
    simp only [List.foldl_cons]
    by_cases h : a ∈ acc
    · rw [if_pos h, ih]
      constructor
      · rintro (hx | hx)
        · exact Or.inl hx
        · exact Or.inr (List.mem_cons_of_mem _ hx)
      · rintro (hx | hx)
        · exact Or.inl hx
        · rcases List.mem_cons.mp hx with rfl | hx
          · exact Or.inl h
          · exact Or.inr hx
    · rw [if_neg h, ih]
      simp only [List.mem_append, List.mem_singleton, List.mem_cons]
      tauto

lemma mem_dedupDates (l : List ℤ) (x : ℤ) : x ∈ dedupDates l ↔ x ∈ l := by
  unfold dedupDates
  rw [mem_foldl_dedup]
  simp

lemma foldl_dedup_of_nodup (l : List ℤ) :
    ∀ acc : List ℤ, l.Nodup → (∀ x ∈ l, x ∉ acc) →
      l.foldl (fun acc d => if d ∈ acc then acc else acc ++ [d]) acc = acc ++ l := by
  induction l with
  | nil => intro acc _ _; simp
  | cons a l ih =>
    intro acc hnd hdisj
    simp only [List.foldl_cons]
    rw [if_neg (hdisj a (List.mem_cons_self a l))]
    rw [ih (acc ++ [a]) (List.nodup_cons.mp hnd).2 ?_]
    · simp
    · intro x hx
      simp only [List.mem_append, List.mem_singleton]
      rintro (hx' | rfl)
      · exact hdisj x (List.mem_cons_of_mem _ hx) hx'
      · exact (List.nodup_cons.mp hnd).1 hx

lemma dedupDates_of_nodup (l : List ℤ) (h : l.Nodup) : dedupDates l = l := by
  unfold dedupDates
  rw [foldl_dedup_of_nodup l [] h (by simp)]
  simp

lemma dedupDates_ne_nil (l : List ℤ) (h : l ≠ []) : dedupDates l ≠ [] := by
  rcases l with _ | ⟨a, l⟩
  · exact absurd rfl h
  · intro hcon
    have ha : a ∈ dedupDates (a :: l) :=
      (mem_dedupDates _ _).mpr (List.mem_cons_self _ _)
    rw [hcon] at ha
    exact absurd ha (List.not_mem_nil a)

lemma mem_sortDesc (l : List ℤ) (x : ℤ) : x ∈ sortDesc l ↔ x ∈ l :=
  List.mem_insertionSort _

lemma sortDesc_ne_nil (l : List ℤ) (h : l ≠ []) : sortDesc l ≠ [] := by
  rcases l with _ | ⟨a, l⟩
  · exact absurd rfl h
  · intro hcon
    have ha : a ∈ sortDesc (a :: l) :=
      (mem_sortDesc _ _).mpr (List.mem_cons_self _ _)
    rw [hcon] at ha
    exact absurd ha (List.not_mem_nil a)

lemma sortDesc_head_ge (l : List ℤ) (m : ℤ) (rest : List ℤ)
    (hs : sortDesc l = m :: rest) (x : ℤ) (hx : x ∈ l) : x ≤ m := by
  have hsorted : List.Sorted (fun a b : ℤ => a ≥ b) (sortDesc l) :=
    List.sorted_insertionSort _ l
  rw [hs] at hsorted
  have hx' : x ∈ m :: rest := by
    rw [← hs]
    exact (mem_sortDesc _ _).mpr hx
  rcases List.mem_cons.mp hx' with rfl | hx'
  · exact le_refl x
  · exact List.rel_of_sorted_cons hsorted x hx'

lemma sortDesc_of_sorted (l : List ℤ) (h : List.Sorted (fun a b : ℤ => a ≥ b) l) :
    sortDesc l = l :=
  List.Sorted.insertionSort_eq h

lemma streakD_three_consecutive (t : ℤ) :
    calculateDayStreakD t [t, t - 1, t - 2] = 3 := by
  have hnd : ([t, t - 1, t - 2] : List ℤ).Nodup := by
    simp
    omega
  have hsorted : sortDesc [t, t - 1, t - 2] = [t, t - 1, t - 2] :=
    sortDesc_of_sorted _ (by
      simp [List.sorted_cons]
      omega)
  unfold calculateDayStreakD
  rw [if_neg (by simp), dedupDates_of_nodup _ hnd, hsorted]
  show (if t - t > 1 then 0 else streakWalk [t, t - 1, t - 2] t) = 3
  rw [if_neg (by omega)]
  simp [streakWalk, show t - 1 - 1 = t - 2 by ring]

lemma streakD_gap (t : ℤ) : calculateDayStreakD t [t, t - 3] = 1 := by
  have hnd : ([t, t - 3] : List ℤ).Nodup := by
    simp
    omega
  have hsorted : sortDesc [t, t - 3] = [t, t - 3] :=
    sortDesc_of_sorted _ (by simp [List.sorted_cons])
  unfold calculateDayStreakD
  rw [if_neg (by simp), dedupDates_of_nodup _ hnd, hsorted]
  show (if t - t > 1 then 0 else streakWalk [t, t - 3] t) = 1
  rw [if_neg (by omega)]
  simp [streakWalk, show t - 3 ≠ t - 1 by omega]

/-- C2: `calculateDayStreak` is 0 on the empty entry list; 3 for entries on
today, yesterday and the day before; 1 for entries on today and three days
ago (the gap stops the walk after one day); and 0 whenever every entry date
is two or more days before today (the streak is only alive if the user
logged today or yesterday). -/
theorem claim_C2 :
    (∀ today : ℤ, calculateDayStreak today [] = 0)
    ∧ (∀ today : ℤ,
        calculateDayStreak today
          [entryOn today, entryOn (today - 1), entryOn (today - 2)] = 3)
    ∧ (∀ today : ℤ,
        calculateDayStreak today [entryOn today, entryOn (today - 3)] = 1)
    ∧ (∀ (today : ℤ) (es : List HealthEntry), es ≠ [] →
        (∀ e ∈ es, e.entry_date ≤ today - 2) →
        calculateDayStreak today es = 0) := by
  refine ⟨fun _ => rfl, ?_, ?_, ?_⟩
  · intro t
    show calculateDayStreakD t [t, t - 1, t - 2] = 3
    exact streakD_three_consecutive t
  · intro t
    show calculateDayStreakD t [t, t - 3] = 1
    exact streakD_gap t
  · intro t es hne hle
    unfold calculateDayStreak
    have hdne : es.map (fun e => e.entry_date) ≠ [] := by
      rcases es with _ | ⟨a, es⟩
      · exact absurd rfl hne
      · simp
    unfold calculateDayStreakD
    rw [if_neg (by simpa using hdne)]
    rcases hsd : sortDesc (dedupDates (es.map fun e => e.entry_date)) with _ | ⟨m, rest⟩
    · rw [hsd]
    · rw [hsd]
      have hm : m ∈ es.map fun e => e.entry_date :=
        (mem_dedupDates _ _).mp
          ((mem_sortDesc _ _).mp (hsd ▸ List.mem_cons_self m rest))
      obtain ⟨e, he, hed⟩ := List.mem_map.mp hm
      have hm2 : m ≤ t - 2 := hed ▸ hle e he
      show (if t - m > 1 then 0 else streakWalk (m :: rest) m) = 0
      rw [if_pos (by omega)]

/-- Witness for C2 on an entry five days old. -/
theorem claim_C2_witness : calculateDayStreak 0 [entryOn (-5)] = 0 :=
  claim_C2.2.2.2 0 [entryOn (-5)] (List.cons_ne_nil _ _)
    (by
      intro e he
      rw [List.mem_singleton] at he
      subst he
      norm_num [entryOn])

lemma dedupDates_append_mem (l : List ℤ) (d : ℤ) (h : d ∈ l) :
    dedupDates (l ++ [d]) = dedupDates l := by
  unfold dedupDates
  rw [List.foldl_append]
  simp only [List.foldl_cons, List.foldl_nil]
  rw [if_pos ((mem_foldl_dedup l [] d).mpr (Or.inr h))]

lemma streakD_append_dup (today : ℤ) (l : List ℤ) (d : ℤ) (h : d ∈ l) :
    calculateDayStreakD today (l ++ [d]) = calculateDayStreakD today l := by
  have hl : l ≠ [] := by
    intro hcon
    rw [hcon] at h
    exact absurd h (List.not_mem_nil d)
  unfold calculateDayStreakD
  rw [if_neg (by simp), if_neg (by simpa using hl), dedupDates_append_mem l d h]

/-- C7: `calculateDayStreak` does not reject future-dated entries: an entry
dated strictly after today passes the gap check (the day difference is
negative, never greater than 1) and the backward walk starts at that future
date, so the streak is at least 1 — and three consecutive future days count
as a streak of 3; moreover entries sharing a calendar date collapse to one,
contributing at most 1 to the streak. -/
theorem claim_C7 :
    (∀ (today : ℤ) (es : List HealthEntry) (d : ℤ),
        d ∈ es.map (fun e => e.entry_date) → today < d →
        1 ≤ calculateDayStreak today es)
    ∧ (∀ today : ℤ,
        calculateDayStreak today
          [entryOn (today + 3), entryOn (today + 2), entryOn (today + 1)] = 3)
    ∧ (∀ (today : ℤ) (es : List HealthEntry) (e : HealthEntry),
        e.entry_date ∈ es.map (fun x => x.entry_date) →
        calculateDayStreak today (es ++ [e]) = calculateDayStreak today es) := by
  refine ⟨?_, ?_, ?_⟩
  · intro t es d hd htd
    have hdne : es.map (fun e => e.entry_date) ≠ [] := by
      intro hcon
      rw [hcon] at hd
      exact absurd hd (List.not_mem_nil d)
    unfold calculateDayStreak calculateDayStreakD
    rw [if_neg (by simpa using hdne)]
    rcases hsd : sortDesc (dedupDates (es.map fun e => e.entry_date)) with _ | ⟨m, rest⟩
    · exact absurd hsd (sortDesc_ne_nil _ (dedupDates_ne_nil _ hdne))
    · rw [hsd]
      have hdm : d ≤ m :=
        sortDesc_head_ge _ m rest hsd d ((mem_dedupDates _ _).mpr hd)
      show 1 ≤ (if t - m > 1 then 0 else streakWalk (m :: rest) m)
      rw [if_neg (by omega)]
      simp [streakWalk]
  · intro t
    show calculateDayStreakD t [t + 3, t + 2, t + 1] = 3
    have hnd : ([t + 3, t + 2, t + 1] : List ℤ).Nodup := by simp
    have hsorted : sortDesc [t + 3, t + 2, t + 1] = [t + 3, t + 2, t + 1] :=
      sortDesc_of_sorted _ (by simp [List.sorted_cons])
    unfold calculateDayStreakD
    rw [if_neg (by simp), dedupDates_of_nodup _ hnd, hsorted]
    show (if t - (t + 3) > 1 then 0 else streakWalk [t + 3, t + 2, t + 1] (t + 3)) = 3
    rw [if_neg (by omega)]
    simp [streakWalk, show t + 3 - 1 = t + 2 by ring, show t + 2 - 1 = t + 1 by ring]
  · intro t es e hd
    unfold calculateDayStreak
    rw [List.map_append]
    exact streakD_append_dup t _ e.entry_date hd

/-- Witness for C7: a duplicate of an existing date does not change the
streak, and a single future-dated entry keeps the streak alive. -/
theorem claim_C7_witness :
    calculateDayStreak 0 [entryOn 5, entryOn 5] = calculateDayStreak 0 [entryOn 5]
    ∧ 1 ≤ calculateDayStreak 0 [entryOn 4] :=
  ⟨claim_C7.2.2 0 [entryOn 5] (entryOn 5) (by simp),
    claim_C7.1 0 [entryOn 4] 4 (by simp [entryOn]) (by norm_num)⟩

/-- C5: the chatbot selector lower-cases the input and returns the fixed
response and suggestions of the first trigger group — in the fixed order
sleep, mood, exercise, nutrition — any of whose trigger words is a substring
of the lowered input; for "I can't sleep" with no entries it returns the
sleep group's response and its 3 suggestions verbatim; when no group
matches it returns the generated summary over the 7 most recent entries,
whose canned phrases are chosen exactly by the thresholds `mood ≥ 4`,
`mood ≤ 2`, `sleep ≥ 7`, `sleep < 6`, `exercise > 150`, `exercise < 60`. -/
theorem claim_C5 :
    generateInsight "I can\x27t sleep" [] =
      ([ChatPiece.text sleepGroup.response], sleepGroup.suggestions)
    ∧ (∀ (msg : String) (es : List HealthEntry),
        (matchesGroup sleepGroup (lowerStr msg) = true →
          generateInsight msg es = ([.text sleepGroup.response], sleepGroup.suggestions))
        ∧ (matchesGroup sleepGroup (lowerStr msg) = false →
            matchesGroup moodGroup (lowerStr msg) = true →
          generateInsight msg es = ([.text moodGroup.response], moodGroup.suggestions))
        ∧ (matchesGroup sleepGroup (lowerStr msg) = false →
            matchesGroup moodGroup (lowerStr msg) = false →
            matchesGroup exerciseGroup (lowerStr msg) = true →
          generateInsight msg es = ([.text exerciseGroup.response], exerciseGroup.suggestions))
        ∧ (matchesGroup sleepGroup (lowerStr msg) = false →
            matchesGroup moodGroup (lowerStr msg) = false →
            matchesGroup exerciseGroup (lowerStr msg) = false →
            matchesGroup nutritionGroup (lowerStr msg) = true →
          generateInsight msg es = ([.text nutritionGroup.response], nutritionGroup.suggestions))
        ∧ ((∀ g ∈ healthInsights, matchesGroup g (lowerStr msg) = false) →
          generateInsight msg es = fallbackInsight es))
    ∧ (∀ es : List HealthEntry,
        (4 ≤ avgMoodRecent es →
          moodPhrase es = [.text "ðŸŒŸ Your mood has been quite positive recently! "])
        ∧ (avgMoodRecent es ≤ 2 →
          moodPhrase es = [.text "ðŸ’™ I notice your mood has been lower lately. "])
        ∧ (2 < avgMoodRecent es → avgMoodRecent es < 4 →
          moodPhrase es = [.text "ðŸ“Š Your mood has been fairly stable. "])
        ∧ (7 ≤ avgSleepRecent es →
          sleepPhrase es = [.text "Your sleep quality looks good with an average of ",
            .fix1 (avgSleepRecent es), .text " hours. "])
        ∧ (avgSleepRecent es < 6 →
          sleepPhrase es = [.text "Your sleep might need attention - averaging ",
            .fix1 (avgSleepRecent es), .text " hours. "])
        ∧ (6 ≤ avgSleepRecent es → avgSleepRecent es < 7 → sleepPhrase es = [])
        ∧ (150 < totalExerciseRecent es →
          exercisePhrase es = [.text "Great job staying active! "])
        ∧ (totalExerciseRecent es < 60 →
          exercisePhrase es = [.text "Consider adding more physical activity to your routine. "])
        ∧ (60 ≤ totalExerciseRecent es → totalExerciseRecent es ≤ 150 →
          exercisePhrase es = [])) := by
  refine ⟨?_, ?_, ?_⟩
  · decide
  · intro msg es
    refine ⟨?_, ?_, ?_, ?_, ?_⟩
    · intro h1
      simp only [generateInsight, healthInsights, List.find?_cons, h1]
    · intro h1 h2
      simp only [generateInsight, healthInsights, List.find?_cons, h1, h2]
    · intro h1 h2 h3
      simp only [generateInsight, healthInsights, List.find?_cons, h1, h2, h3]
    · intro h1 h2 h3 h4
      simp only [generateInsight, healthInsights, List.find?_cons, h1, h2, h3, h4]
    · intro h
      have h1 := h sleepGroup (by simp [healthInsights])
      have h2 := h moodGroup (by simp [healthInsights])
      have h3 := h exerciseGroup (by simp [healthInsights])
      have h4 := h nutritionGroup (by simp [healthInsights])
      simp only [generateInsight, healthInsights, List.find?_cons, List.find?_nil,
        h1, h2, h3, h4]
  · intro es
    refine ⟨?_, ?_, ?_, ?_, ?_, ?_, ?_, ?_, ?_⟩
    · intro h
      unfold moodPhrase
      rw [if_pos (by linarith)]
    · intro h
      unfold moodPhrase
      rw [if_neg (by push_neg; linarith), if_pos h]
    · intro h1 h2
      unfold moodPhrase
      rw [if_neg (by push_neg; linarith), if_neg (by push_neg; linarith)]
    · intro h
      unfold sleepPhrase
      rw [if_pos (by linarith)]
    · intro h
      unfold sleepPhrase
      rw [if_neg (by push_neg; linarith), if_pos h]
    · intro h1 h2
      unfold sleepPhrase
      rw [if_neg (by push_neg; linarith), if_neg (by push_neg; linarith)]
    · intro h
      unfold exercisePhrase
      rw [if_pos h]
    · intro h
      unfold exercisePhrase
      rw [if_neg (by push_neg; linarith), if_pos h]
    · intro h1 h2
      unfold exercisePhrase
      rw [if_neg (by push_neg; linarith), if_neg (by push_neg; linarith)]

/-- Witness for C5: a greeting matches no trigger group, so the selector
falls back to the generated summary. -/
theorem claim_C5_witness : generateInsight "hello" [] = fallbackInsight [] :=
  (claim_C5.2.1 "hello" []).2.2.2.2 (by decide)

/-- C6 counterexample: on the well-typed series `[0, 1]` the trend
computation divides by a zero first-half mean, so the JS code returns
`Infinity` — a value that is not well-formed/finite (`none` in the
finiteness-tracking embedding), contradicting the claim that every analytic
function returns a finite value on all well-typed input. -/
theorem claim_C6_counterexample : calculateTrendFin [(0 : ℚ), 1] = none := by
  norm_num [calculateTrendFin]

/-- C6 (amended): the analytic functions never raise and coerce absent or
empty fields to safe defaults (numeric fields to 0, an unset or unrecognized
mood to the neutral weight 3), and `calculateTrend` is finite exactly when
the series has fewer than 2 points or its first-half mean is nonzero; on the
finite cases the exact rational embedding agrees with the
finiteness-tracking one. -/
theorem claim_C6 :
    (∀ values : List ℚ, (calculateTrendFin values).isSome = true ↔
        (values.length < 2 ∨ firstHalfMean values ≠ 0))
    ∧ (∀ (values : List ℚ) (q : ℚ),
        calculateTrendFin values = some q → calculateTrend values = q)
    ∧ (∀ s e w : Option ℚ,
        computeHealthScore none s e w = computeHealthScore (some "neutral") s e w)
    ∧ (∀ m : Option String, computeHealthScore m none none none =
        computeHealthScore m (some 0) (some 0) (some 0))
    ∧ (∀ m : Option String, (∀ v, moodValues v = none → m ≠ some v) ∨ moodWeight m = 3) := by
  refine ⟨?_, ?_, ?_, ?_, ?_⟩
  · intro values
    unfold calculateTrendFin firstHalfMean
    by_cases hl : values.length < 2
    · rw [if_pos hl]
      simp [hl]
    · rw [if_neg hl]
      simp only []
      split_ifs with hz
      · constructor
        · intro hcon
          simp at hcon
        · rintro (hcon | hcon)
          · exact absurd hcon hl
          · exact absurd hz hcon
      · constructor
        · intro _
          exact Or.inr hz
        · intro _
          rfl
  · intro values q h
    unfold calculateTrendFin at h
    unfold calculateTrend
    by_cases hl : values.length < 2
    · rw [if_pos hl] at h
      rw [if_pos hl]
      exact Option.some_inj.mp h
    · rw [if_neg hl] at h
      rw [if_neg hl]
      simp only [] at h
      split_ifs at h with hz
      exact Option.some_inj.mp h
  · intro s e w
    have hm : moodWeight none = moodWeight (some "neutral") := by decide
    simp only [computeHealthScore, hm]
  · intro m
    rfl
  · intro m
    by_cases h : moodWeight m = 3
    · exact Or.inr h
    · refine Or.inl fun v hv hcon => h ?_
      rw [hcon]
      unfold moodWeight
      simp [hv]

/-- Witness for C6 on a series with nonzero first-half mean. -/
theorem claim_C6_witness : (calculateTrendFin [(1 : ℚ), 1, 2, 2]).isSome = true :=
  (claim_C6.1 [1, 1, 2, 2]).mpr (Or.inr (by norm_num [firstHalfMean]))

lemma applyPayload_id (r : HealthEntry) (p : SavePayload) :
    (applyPayload r p).id = r.id := rfl

lemma keyOf_applyPayload (r : HealthEntry) (p : SavePayload) :
    keyOf (applyPayload r p) = (p.user_id, p.entry_date) := rfl

lemma map_id_updateById (store : List HealthEntry) (i : ℕ) (p : SavePayload) :
    (updateById store i p).map (fun r => r.id) = store.map (fun r => r.id) := by
  unfold updateById
  rw [List.map_map]
  apply List.map_congr_left
  intro r _
  simp only [Function.comp_apply]
  split_ifs with h
  · rfl
  · rfl

lemma map_keyOf_updateById (store : List HealthEntry) (i : ℕ) (p : SavePayload)
    (h : ∀ r ∈ store, r.id = i → keyOf r = (p.user_id, p.entry_date)) :
    (updateById store i p).map keyOf = store.map keyOf := by
  unfold updateById
  rw [List.map_map]
  apply List.map_congr_left
  intro r hr
  simp only [Function.comp_apply]
  split_ifs with hid
  · rw [keyOf_applyPayload, h r hr hid]
  · rfl

lemma countFor_updateById (store : List HealthEntry) (i : ℕ) (p : SavePayload)
    (u : String) (d : ℤ)
    (h : ∀ r ∈ store, r.id = i → keyOf r = (p.user_id, p.entry_date)) :
    countFor (updateById store i p) u d = countFor store u d := by
  unfold countFor
  rw [map_keyOf_updateById store i p h]

lemma findFor_none_count (store : List HealthEntry) (u : String) (d : ℤ)
    (h : findFor store u d = none) : countFor store u d = 0 := by
  unfold countFor
  rw [List.count_eq_zero]
  intro hmem
  obtain ⟨r, hr, hk⟩ := List.mem_map.mp hmem
  unfold findFor at h
  rw [List.find?_eq_none] at h
  refine h r hr ?_
  have h1 : r.user_id = u := congrArg Prod.fst hk
  have h2 : r.entry_date = d := congrArg Prod.snd hk
  simp [h1, h2]

lemma findFor_mem_and_key (store : List HealthEntry) (u : String) (d : ℤ)
    (e : HealthEntry) (h : findFor store u d = some e) :
    e ∈ store ∧ e.user_id = u ∧ e.entry_date = d := by
  unfold findFor at h
  refine ⟨List.mem_of_find?_eq_some h, ?_⟩
  have := List.find?_some h
  simpa using this

lemma same_id_same_row (store : List HealthEntry)
    (hnodup : (store.map (fun r => r.id)).Nodup)
    (r e : HealthEntry) (hr : r ∈ store) (he : e ∈ store) (hid : r.id = e.id) :
    r = e :=
  List.inj_on_of_nodup_map hnodup hr he hid

lemma le_foldr_max (l : List ℕ) (x : ℕ) (hx : x ∈ l) : x ≤ l.foldr max 0 := by
  induction l with
  | nil => cases hx
  | cons a l ih =>
    rcases List.mem_cons.mp hx with rfl | hx
    · exact le_max_left _ _
    · exact le_trans (ih hx) (le_max_right _ _)

lemma nextId_not_mem (store : List HealthEntry) :
    nextId store ∉ store.map (fun r => r.id) := by
  intro h
  have h1 := le_foldr_max _ _ h
  unfold nextId at h1
  omega

lemma findFor_updateById (store : List HealthEntry) (p : SavePayload)
    (e : HealthEntry)
    (hnodup : (store.map (fun r => r.id)).Nodup)
    (hfind : findFor store p.user_id p.entry_date = some e) :
    findFor (updateById store e.id p) p.user_id p.entry_date =
      some (applyPayload e p) := by
  induction store with
  | nil => simp [findFor] at hfind
  | cons a store ih =>
    rw [List.map_cons] at hnodup
    by_cases ha : a.user_id = p.user_id ∧ a.entry_date = p.entry_date
    · have hfa : findFor (a :: store) p.user_id p.entry_date = some a := by
        unfold findFor
        exact List.find?_cons_of_pos _ (by simp [ha.1, ha.2])
      have hae : a = e := Option.some_inj.mp (hfa ▸ hfind)
      subst hae
      show List.find? _ ((if a.id = a.id then applyPayload a p else a) :: updateById store a.id p)
          = some (applyPayload a p)
      rw [if_pos rfl]
      exact List.find?_cons_of_pos _ (by simp [keyOf_applyPayload, applyPayload])
    · have hfa : findFor (a :: store) p.user_id p.entry_date =
          findFor store p.user_id p.entry_date := by
        unfold findFor
        exact List.find?_cons_of_neg _ (by simpa using ha)
      rw [hfa] at hfind
      have he : e ∈ store := (findFor_mem_and_key _ _ _ _ hfind).1
      have haid : ¬ a.id = e.id := by
        intro hcon
        exact (List.nodup_cons.mp hnodup).1
          (hcon ▸ List.mem_map_of_mem (fun r => r.id) he)
      show List.find? _ ((if a.id = e.id then applyPayload a p else a) :: updateById store e.id p)
          = some (applyPayload e p)
      rw [if_neg haid]
      rw [List.find?_cons_of_neg _ (by simpa using ha)]
      exact ih (List.nodup_cons.mp hnodup).2 hfind

lemma findFor_append_insert (store : List HealthEntry) (p : SavePayload) (fid : ℕ)
    (hnone : findFor store p.user_id p.entry_date = none) :
    findFor (store ++ [rowOfPayload fid p]) p.user_id p.entry_date =
      some (rowOfPayload fid p) := by
  unfold findFor at hnone ⊢
  rw [List.find?_append, hnone]
  simp [rowOfPayload]

lemma saveEntry_inv_roundtrip (store : List HealthEntry) (fid : ℕ) (p : SavePayload)
    (hinv : StoreInv store) (hfid : fid ∉ store.map (fun r => r.id)) :
    StoreInv (saveEntry store fid p)
    ∧ (∃ r, findFor (saveEntry store fid p) p.user_id p.entry_date = some r
        ∧ r.user_id = p.user_id ∧ r.entry_date = p.entry_date
        ∧ r.sleep_hours = p.sleep_hours ∧ r.water_intake = p.water_intake
        ∧ r.exercise_minutes = p.exercise_minutes
        ∧ (∀ m, p.mood = some m → r.mood = some m)
        ∧ (∀ s, p.symptoms = some s → r.symptoms = some s)
        ∧ (∀ s, p.notes = some s → r.notes = some s)
        ∧ (∀ v, p.energy_level = some v → r.energy_level = some v)
        ∧ (∀ v, p.stress_level = some v → r.stress_level = some v))
    ∧ ((findFor store p.user_id p.entry_date).isSome = true →
        (saveEntry store fid p).length = store.length) := by
  obtain ⟨hnodup, hcount⟩ := hinv
  unfold saveEntry
  rcases hf : findFor store p.user_id p.entry_date with _ | e
  · refine ⟨⟨?_, ?_⟩, ?_, ?_⟩
    · show ((store ++ [rowOfPayload fid p]).map (fun r => r.id)).Nodup
      rw [List.map_append]
      rw [List.nodup_append]
      refine ⟨hnodup, List.nodup_singleton _, ?_⟩
      intro a ha hb
      simp only [List.map_cons, List.map_nil, List.mem_singleton] at hb
      subst hb
      exact hfid ha
    · intro u d
      show countFor (store ++ [rowOfPayload fid p]) u d ≤ 1
      unfold countFor
      rw [List.map_append, List.count_append]
      by_cases hud : ((u, d) : String × ℤ) = (p.user_id, p.entry_date)
      · have h0 : (store.map keyOf).count (u, d) = 0 := by
          have h1 := findFor_none_count store p.user_id p.entry_date hf
          unfold countFor at h1
          rw [hud]
          exact h1
        rw [h0]
        have h2 : (List.map keyOf [rowOfPayload fid p]).count (u, d) ≤ 1 := by
          simp only [List.map_cons, List.map_nil, List.count_cons, List.count_nil]
          split_ifs <;> norm_num
        omega
      · have h2 : (List.map keyOf [rowOfPayload fid p]).count (u, d) = 0 := by
          rw [List.count_eq_zero]
          intro hcon
          simp only [List.map_cons, List.map_nil, List.mem_singleton] at hcon
          exact hud (hcon.trans (by rfl))
        rw [h2]
        have h3 := hcount u d
        unfold countFor at h3
        omega
    · refine ⟨rowOfPayload fid p, findFor_append_insert store p fid hf,
        rfl, rfl, rfl, rfl, rfl, ?_, ?_, ?_, ?_, ?_⟩
      · exact fun m hm => hm
      · exact fun s hs => hs
      · exact fun s hs => hs
      · exact fun v hv => hv
      · exact fun v hv => hv
    · intro hcon
      exact absurd hcon (by simp)
  · have hek := findFor_mem_and_key store p.user_id p.entry_date e hf
    have hkey : ∀ r ∈ store, r.id = e.id → keyOf r = (p.user_id, p.entry_date) := by
      intro r hr hid
      have hre : r = e := same_id_same_row store hnodup r e hr hek.1 hid
      rw [hre]
      unfold keyOf
      rw [hek.2.1, hek.2.2]
    refine ⟨⟨?_, ?_⟩, ?_, ?_⟩
    · rw [map_id_updateById]
      exact hnodup
    · intro u d
      rw [countFor_updateById store e.id p u d hkey]
      exact hcount u d
    · refine ⟨applyPayload e p, findFor_updateById store p e hnodup hf,
        rfl, rfl, rfl, rfl, rfl, ?_, ?_, ?_, ?_, ?_⟩
      · intro m hm
        simp [applyPayload, hm]
      · intro s hs
        simp [applyPayload, hs]
      · intro s hs
        simp [applyPayload, hs]
      · intro v hv
        simp [applyPayload, hv]
      · intro v hv
        simp [applyPayload, hv]
    · intro _
      show (updateById store e.id p).length = store.length
      unfold updateById
      exact List.length_map _ _

/-- C9: saving a health entry for a date on which the user already has a row
updates that row in place — the store keeps its length, ids stay distinct,
and every user keeps at most one row per calendar date — and reloading the
entry for that user and date afterwards returns exactly the field values
present in the save payload; consequently any sequence of saves preserves
the at-most-one-entry-per-date invariant. -/
theorem claim_C9 :
    (∀ (store : List HealthEntry) (fid : ℕ) (p : SavePayload),
        StoreInv store → fid ∉ store.map (fun r => r.id) →
        StoreInv (saveEntry store fid p)
        ∧ (∃ r, findFor (saveEntry store fid p) p.user_id p.entry_date = some r
            ∧ r.user_id = p.user_id ∧ r.entry_date = p.entry_date
            ∧ r.sleep_hours = p.sleep_hours ∧ r.water_intake = p.water_intake
            ∧ r.exercise_minutes = p.exercise_minutes
            ∧ (∀ m, p.mood = some m → r.mood = some m)
            ∧ (∀ s, p.symptoms = some s → r.symptoms = some s)
            ∧ (∀ s, p.notes = some s → r.notes = some s)
            ∧ (∀ v, p.energy_level = some v → r.energy_level = some v)
            ∧ (∀ v, p.stress_level = some v → r.stress_level = some v))
        ∧ ((findFor store p.user_id p.entry_date).isSome = true →
            (saveEntry store fid p).length = store.length))
    ∧ (∀ (ps : List SavePayload) (store : List HealthEntry),
        StoreInv store → StoreInv (ps.foldl saveEntryAuto store)) := by
  refine ⟨saveEntry_inv_roundtrip, ?_⟩
  intro ps
  induction ps with
  | nil => intro store hinv; simpa using hinv
  | cons p ps ih =>
    intro store hinv
    simp only [List.foldl_cons]
    apply ih
    exact (saveEntry_inv_roundtrip store (nextId store) p hinv (nextId_not_mem store)).1

/-- A concrete payload for exercising the save operation. -/
def samplePayload : SavePayload :=
  ⟨"user", 0, some "good", none, none, 7, 5, 30, none, none⟩

/-- Witness for C9: saving into the empty store preserves the store
invariant. -/
theorem claim_C9_witness : StoreInv (saveEntry [] 1 samplePayload) :=
  (claim_C9.1 [] 1 samplePayload
    ⟨List.nodup_nil, fun u d => by unfold countFor; simp⟩
    (by simp)).1
